import Mathlib

/-!
# Currency exchange gateway (`src/index.js`)

A shallow embedding of the single route handler `app.get('/convert', ...)`.

Modelling conventions
* JavaScript numbers are the type `Num`, the IEEE-754 binary64 values: `NaN`, the two
  infinities, or a finite value held as the rational number it denotes. Every arithmetic
  result and every parsed literal is rounded to the nearest binary64 value, ties to even, with
  overflow to infinity and gradual underflow (`toDouble`). The two zeros are one value: no
  division of the handler has a zero divisor and the reply prints both zeros alike.
* The process-wide cache (`cachedXmlData`, `cacheTimestamp`) is an explicit `Cache` value that
  the handler takes and returns; one request is in flight at a time.
* The upstream (`fetch`) and the clock (`Date.now()`) are an explicit `Env`; the XML library
  `xml2js.parseStringPromise` is a parameter of the handler.
-/

namespace CurrencyExchange

/-! ## JavaScript numbers -/

/-- A JavaScript number (binary64): `NaN`, plus or minus `Infinity`, or a finite value held as
the rational number it denotes. -/
inductive Num where
  | nan : Num
  | inf (negative : Bool) : Num
  | fin (q : ℚ) : Num
  deriving DecidableEq

/-- The integer nearest to `n / d`, for `d > 0`; a tie goes to the even neighbour. -/
def roundHalfEven (n : Int) (d : Nat) : Int :=
  let f := n / (d : Int)
  let r := n % (d : Int)
  if 2 * r < d then f
  else if (d : Int) < 2 * r then f + 1
  else if f % 2 = 0 then f else f + 1

/-- The number of binary digits of `n`, found in at most `fuel` halvings. -/
def bitLength : Nat → Nat → Nat
  | 0, _ => 0
  | fuel + 1, n => if n = 0 then 0 else bitLength fuel (n / 2) + 1

/-- The exponent of the leading binary digit of a positive `n`. -/
def log2 (n : Nat) : Nat :=
  bitLength n n - 1

/-- The exponent `e` with `2 ^ e ≤ n / d < 2 ^ (e + 1)`, for positive `n` and `d`. -/
def binade (n d : Nat) : Int :=
  if 2 ^ log2 n * d ≤ n * 2 ^ log2 d then (log2 n : Int) - log2 d
  else (log2 n : Int) - log2 d - 1

/-- The binary64 value nearest to the real number `q`, ties to even: 53 significant bits, the
least exponent of a bit `-1074`, and infinity once the rounded magnitude reaches `2 ^ 1024`. -/
def toDouble (q : ℚ) : Num :=
  if q = 0 then Num.fin 0
  else
    let p : Int := max (binade q.num.natAbs q.den - 52) (-1074)
    let m : Int :=
      if 0 ≤ p then roundHalfEven q.num (q.den * 2 ^ p.toNat)
      else roundHalfEven (q.num * 2 ^ (-p).toNat) q.den
    let v : ℚ := if 0 ≤ p then ((m * 2 ^ p.toNat : Int) : ℚ) else Rat.divInt m (2 ^ (-p).toNat)
    if (2 : ℚ) ^ 1024 ≤ |v| then Num.inf (decide (q < 0)) else Num.fin v

namespace Num

/-- The conversion `ToBoolean` on numbers: `NaN` and zero are falsy. -/
def truthy : Num → Bool
  | nan => false
  | inf _ => true
  | fin q => decide (q ≠ 0)

/-- Unary minus. -/
def neg : Num → Num
  | nan => nan
  | inf s => inf (!s)
  | fin q => fin (-q)

/-- The operator `*`: the exact product rounded to binary64. -/
def mul : Num → Num → Num
  | nan, _ => nan
  | _, nan => nan
  | inf s, inf t => inf (xor s t)
  | inf s, fin q => if q = 0 then nan else inf (xor s (decide (q < 0)))
  | fin q, inf s => if q = 0 then nan else inf (xor s (decide (q < 0)))
  | fin a, fin b => toDouble (a * b)

/-- The operator `/`: the exact quotient rounded to binary64. -/
def div : Num → Num → Num
  | nan, _ => nan
  | _, nan => nan
  | inf _, inf _ => nan
  | inf s, fin q => inf (xor s (decide (q < 0)))
  | fin _, inf _ => fin 0
  | fin a, fin b =>
    if b = 0 then (if a = 0 then nan else inf (decide (a < 0))) else toDouble (a / b)

/-- The function `Math.ceil`; the ceiling of a binary64 value is a binary64 value. -/
def ceil : Num → Num
  | nan => nan
  | inf s => inf s
  | fin q => fin (⌈q⌉ : ℤ)

end Num

/-! ## `parseFloat` -/

/-- White space and line terminators skipped by `parseFloat` before the literal. -/
def isStrWhiteSpaceChar (c : Char) : Bool :=
  decide (c.toNat ∈ [9, 10, 11, 12, 13, 32, 160, 5760, 8232, 8233, 8239, 8287, 12288, 65279])
    || (decide (8192 ≤ c.toNat) && decide (c.toNat ≤ 8202))

/-- A decimal digit `0`..`9`. -/
def isDecimalDigit (c : Char) : Bool :=
  decide (48 ≤ c.toNat) && decide (c.toNat ≤ 57)

/-- The mathematical value of a run of decimal digits. -/
def digitsValue (ds : List Char) : Nat :=
  ds.foldl (fun n c => 10 * n + (c.toNat - 48)) 0

/-- The digits-only exponent after an optional sign; `none` when no digit follows. -/
def signedInteger : List Char → Option Int
  | '+' :: ds =>
    if (ds.takeWhile isDecimalDigit).isEmpty then none
    else some (digitsValue (ds.takeWhile isDecimalDigit) : Int)
  | '-' :: ds =>
    if (ds.takeWhile isDecimalDigit).isEmpty then none
    else some (-(digitsValue (ds.takeWhile isDecimalDigit) : Int))
  | ds =>
    if (ds.takeWhile isDecimalDigit).isEmpty then none
    else some (digitsValue (ds.takeWhile isDecimalDigit) : Int)

/-- The exponent contributed by the longest `ExponentPart` at the head of the text, `0` if none. -/
def exponentPart : List Char → Int
  | c :: rest => if c = 'e' ∨ c = 'E' then (signedInteger rest).getD 0 else 0
  | [] => 0

/-- The value of the longest prefix that is a `StrUnsignedDecimalLiteral`, rounded to binary64;
`NaN` if there is no such prefix. -/
def strUnsignedDecimalLiteral (cs : List Char) : Num :=
  if "Infinity".toList.isPrefixOf cs then Num.inf false
  else
    let ip := cs.takeWhile isDecimalDigit
    match cs.dropWhile isDecimalDigit with
    | '.' :: r2 =>
      let fp := r2.takeWhile isDecimalDigit
      if ip.isEmpty && fp.isEmpty then Num.nan
      else toDouble ((digitsValue (ip ++ fp) : ℚ) / (10 : ℚ) ^ fp.length
        * (10 : ℚ) ^ exponentPart (r2.dropWhile isDecimalDigit))
    | r1 =>
      if ip.isEmpty then Num.nan
      else toDouble ((digitsValue ip : ℚ) * (10 : ℚ) ^ exponentPart r1)

/-- The value of the longest prefix that is a `StrDecimalLiteral` (an optional sign first). -/
def strDecimalLiteral : List Char → Num
  | '+' :: cs => strUnsignedDecimalLiteral cs
  | '-' :: cs => (strUnsignedDecimalLiteral cs).neg
  | cs => strUnsignedDecimalLiteral cs

/-- The global `parseFloat` applied to a string. -/
def parseFloatString (s : String) : Num :=
  strDecimalLiteral (s.toList.dropWhile isStrWhiteSpaceChar)

/-- The global `parseFloat` applied to a query or attribute value that may be `undefined`:
`undefined` is first turned into the text `"undefined"`, which has no numeric prefix. -/
def parseFloat : Option String → Num
  | none => Num.nan
  | some s => parseFloatString s

/-! ## Strings -/

/-- The pieces of a text between occurrences of a one-character separator. -/
def splitChars (sep : Char) : List Char → List (List Char)
  | [] => [[]]
  | c :: cs =>
    if c = sep then [] :: splitChars sep cs
    else
      match splitChars sep cs with
      | [] => [[c]]
      | p :: ps => (c :: p) :: ps

/-- The method `String.prototype.split` with a one-character separator. -/
def split (s : String) (sep : Char) : List String :=
  (splitChars sep s.toList).map String.mk

/-- A value interpolated into a template literal: `undefined` prints as the word. -/
def interpolate : Option String → String
  | none => "undefined"
  | some s => s

/-- The conversion `ToBoolean` on a value that is `undefined`, `null` or a string. -/
def truthyString : Option String → Bool
  | none => false
  | some s => decide (s ≠ "")

/-- The text `t` occurs somewhere inside `s`. -/
def Mentions (s t : String) : Prop :=
  ∃ before after : String, s = before ++ t ++ after

/-! ## The rate dictionary `rates` -/

/-- What a property read on `rates` can give: nothing, a number, or an inherited object. -/
inductive Val where
  | undefined : Val
  | number (n : Num) : Val
  | object : Val
  deriving DecidableEq

/-- The conversion `ToBoolean`. -/
def Val.truthy : Val → Bool
  | Val.undefined => false
  | Val.number n => n.truthy
  | Val.object => true

/-- The conversion `ToNumber` applied by the operator `/`. -/
def Val.toNumber : Val → Num
  | Val.undefined => Num.nan
  | Val.number n => n
  | Val.object => Num.nan

/-- The own properties of the object `rates`, by key. -/
abbrev Rates := String → Option Num

/-- The property names every object literal inherits from `Object.prototype`. -/
def objectPrototypeProperties : List String :=
  ["constructor", "__defineGetter__", "__defineSetter__", "hasOwnProperty",
   "__lookupGetter__", "__lookupSetter__", "isPrototypeOf", "propertyIsEnumerable",
   "toString", "valueOf", "__proto__", "toLocaleString"]

/-- The read `rates[key]`: an own property, else an inherited member, else `undefined`. -/
def Rates.get (rates : Rates) (key : String) : Val :=
  match rates key with
  | some n => Val.number n
  | none => if key ∈ objectPrototypeProperties then Val.object else Val.undefined

/-- The write `rates[key] = rate`; writing a number to the inherited accessor `__proto__` is
ignored by the language. -/
def Rates.set (rates : Rates) (key : String) (rate : Num) : Rates :=
  if key = "__proto__" then rates
  else fun k => if k = key then some rate else rates k

/-- The literal `{ 'EUR': 1.0 }`. -/
def initialRates : Rates :=
  fun k => if k = "EUR" then some (Num.fin 1) else none

/-! ## The parsed feed -/

/-- A failure of the handler body: a thrown `Error` with its message, or a `TypeError`
raised by the engine for a property read on `undefined` or `null`. -/
inductive Failure where
  | error (message : String) : Failure
  | typeError : Failure
  deriving DecidableEq

/-- An innermost `Cube` element: its attribute object `$`, absent when it has no attributes. -/
structure RateCube where
  attrs : Option (List (String × String))

/-- The dated `Cube` element: its attribute object `$` and its child list `Cube`. -/
structure DayCube where
  attrs : Option (List (String × String))
  Cube : Option (List RateCube)

/-- The outer `Cube` element with its child list `Cube`. -/
structure OuterCube where
  Cube : Option (List DayCube)

/-- The element `gesmes:Envelope` with its child list `Cube`. -/
structure Envelope where
  Cube : Option (List OuterCube)

/-- The object `xml2js` resolves with: only the property `gesmes:Envelope` is read. -/
structure Xml2jsResult where
  envelope : Option Envelope

/-- The library call `xml2js.parseStringPromise`: it rejects with a message, or resolves with
`null` (`none`) or with a document object. -/
abbrev Xml2js := Option String → Except String (Option Xml2jsResult)

/-- A property read on a value that must not be `undefined` or `null`. -/
def defined {α : Type} : Option α → Except Failure α
  | none => Except.error Failure.typeError
  | some a => Except.ok a

/-- The element reached by `result['gesmes:Envelope'].Cube[0].Cube[0]`. -/
def dayCube (result : Option Xml2jsResult) : Except Failure DayCube :=
  match defined result with
  | Except.error e => Except.error e
  | Except.ok r =>
    match defined r.envelope with
    | Except.error e => Except.error e
    | Except.ok envelope =>
      match defined envelope.Cube with
      | Except.error e => Except.error e
      | Except.ok outerList =>
        match defined outerList.head? with
        | Except.error e => Except.error e
        | Except.ok outer =>
          match defined outer.Cube with
          | Except.error e => Except.error e
          | Except.ok dayList => defined dayList.head?

/-- The body of the callback of `cubes.forEach`: one write into `rates`. -/
def addCube (rates : Rates) (cube : RateCube) : Except Failure Rates :=
  match defined cube.attrs with
  | Except.error e => Except.error e
  | Except.ok attrs =>
    Except.ok (rates.set (interpolate (attrs.lookup "currency")) (parseFloat (attrs.lookup "rate")))

/-- The loop `cubes.forEach(...)` over a list of cubes. -/
def addCubes : Rates → List RateCube → Except Failure Rates
  | rates, [] => Except.ok rates
  | rates, cube :: rest =>
    match addCube rates cube with
    | Except.error e => Except.error e
    | Except.ok rates1 => addCubes rates1 rest

/-- The dictionary `rates` built from `cubes`; `cubes.forEach` on `undefined` is a `TypeError`. -/
def rates (cubes : Option (List RateCube)) : Except Failure Rates :=
  match defined cubes with
  | Except.error e => Except.error e
  | Except.ok list => addCubes initialRates list

/-! ## Conversion -/

/-- The message of the error thrown by `getExchangeRate`. -/
def notAvailableMessage (fromCurrency toCurrency : String) : String :=
  "One of the currencies (" ++ fromCurrency ++ " or " ++ toCurrency
    ++ ") is not available in the ECB data."

/-- The function `getExchangeRate`. -/
def getExchangeRate (rates : Rates) (fromCurrency toCurrency : String) : Except Failure Num :=
  if !(rates.get fromCurrency).truthy || !(rates.get toCurrency).truthy then
    Except.error (Failure.error (notAvailableMessage fromCurrency toCurrency))
  else
    Except.ok ((rates.get toCurrency).toNumber.div (rates.get fromCurrency).toNumber)

deriving instance DecidableEq for Except

/-- One element of the array `conversions`. -/
structure Conversion where
  to_currency : String
  exchange_rate : Num
  converted_amount : Num
  deriving DecidableEq

/-- The callback of `toCurrencies.map`. -/
def conversion (rates : Rates) (fromCurrency : String) (amount : Num) (toCurrency : String) :
    Except Failure Conversion :=
  match getExchangeRate rates fromCurrency toCurrency with
  | Except.error e => Except.error e
  | Except.ok exchangeRate =>
    let convertedAmount := amount.mul exchangeRate
    let roundedExchangeRate := ((exchangeRate.mul (Num.fin 100)).ceil).div (Num.fin 100)
    let roundedConvertedAmount := ((convertedAmount.mul (Num.fin 100)).ceil).div (Num.fin 100)
    Except.ok
      { to_currency := toCurrency
        exchange_rate := roundedExchangeRate
        converted_amount := roundedConvertedAmount }

/-- The array `conversions`: the callback applied in order, stopping at the first throw. -/
def conversions (rates : Rates) (fromCurrency : String) (amount : Num) :
    List String → Except Failure (List Conversion)
  | [] => Except.ok []
  | toCurrency :: rest =>
    match conversion rates fromCurrency amount toCurrency with
    | Except.error e => Except.error e
    | Except.ok c =>
      match conversions rates fromCurrency amount rest with
      | Except.error e => Except.error e
      | Except.ok cs => Except.ok (c :: cs)

/-- The function `formatEuropeanDate`. -/
def formatEuropeanDate (isoDate : String) : String :=
  let parts := split isoDate '-'
  interpolate parts[2]? ++ "/" ++ interpolate parts[1]? ++ "/" ++ interpolate parts[0]?

/-- The suffix appended to the date when the emergency cache is used. -/
def outdatedMarker : String := " (Outdated data)"

/-! ## Cache, upstream and clock -/

/-- The constant `CACHE_DURATION`: 8 hours in milliseconds. -/
def CACHE_DURATION : Int := 8 * 60 * 60 * 1000

/-- The constant `MAX_CACHE_AGE`: 48 hours in milliseconds. -/
def MAX_CACHE_AGE : Int := 48 * 60 * 60 * 1000

/-- The constant `maxAttempts`. -/
def maxAttempts : Nat := 3

/-- The message thrown when every attempt failed and no usable cache is left. -/
def noCachedDataMessage : String :=
  "Could not obtain the XML from the ECB and no cached data is available."

/-- The two global variables; `none` is their initial `null`. -/
structure Cache where
  cachedXmlData : Option String
  cacheTimestamp : Option Int
  deriving DecidableEq

/-- The number a timestamp contributes to a subtraction: `null` counts as zero. -/
def timestampNumber : Option Int → Int
  | none => 0
  | some t => t

/-- What one pass through the `try` block of the retry loop meets. -/
inductive FetchResult where
  | rejected : FetchResult
  | notOk (statusText : String) : FetchResult
  | textRejected : FetchResult
  | ok (body : String) : FetchResult
  deriving DecidableEq

/-- The attempt ended in the `catch` block. -/
def FetchResult.failed : FetchResult → Bool
  | FetchResult.ok _ => false
  | _ => true

/-- The world seen by one request: `fetch i` is what the call number `i` (from zero) meets, and
`now k` is what `Date.now()` reads once `k` calls have completed. -/
structure Env where
  fetch : Nat → FetchResult
  now : Nat → Int

/-- The local variables of the retry block, the cache, a pending exception, and two counters
of observable effects (calls to `fetch`, one-second waits). -/
structure LoopState where
  cache : Cache
  xmlData : Option String
  useCache : Bool
  attempts : Nat
  success : Bool
  thrown : Option Failure
  fetchCalls : Nat
  waits : Nat
  deriving DecidableEq

/-- The guard `attempts < maxAttempts && !success`; a pending exception also leaves the loop. -/
def loopGuard (s : LoopState) : Bool :=
  decide (s.attempts < maxAttempts) && !s.success && s.thrown.isNone

/-- One iteration of the `while` loop: the `try` block and its `catch`. -/
def loopBody (env : Env) (s : LoopState) : LoopState :=
  match env.fetch s.fetchCalls with
  | FetchResult.ok body =>
    { s with
      fetchCalls := s.fetchCalls + 1
      xmlData := some body
      cache := { cachedXmlData := some body, cacheTimestamp := some (env.now (s.fetchCalls + 1)) }
      success := true }
  | _ =>
    if s.attempts + 1 = maxAttempts then
      if truthyString s.cache.cachedXmlData
          && decide (env.now (s.fetchCalls + 1) - timestampNumber s.cache.cacheTimestamp
              < MAX_CACHE_AGE) then
        { s with
          fetchCalls := s.fetchCalls + 1
          attempts := s.attempts + 1
          xmlData := s.cache.cachedXmlData
          useCache := true }
      else
        { s with
          fetchCalls := s.fetchCalls + 1
          attempts := s.attempts + 1
          thrown := some (Failure.error noCachedDataMessage) }
    else
      { s with
        fetchCalls := s.fetchCalls + 1
        attempts := s.attempts + 1
        waits := s.waits + 1 }

/-- The `while` loop run with a bound on the number of iterations; `none` when the bound is hit
with the guard still true. -/
def whileLoop (env : Env) : Nat → LoopState → Option LoopState
  | 0, s => if loopGuard s then none else some s
  | fuel + 1, s => if loopGuard s then whileLoop env fuel (loopBody env s) else some s

/-- The freshness test `cachedXmlData && (Date.now() - cacheTimestamp) < CACHE_DURATION`. -/
def fresh (env : Env) (cache : Cache) : Bool :=
  truthyString cache.cachedXmlData
    && decide (env.now 0 - timestampNumber cache.cacheTimestamp < CACHE_DURATION)

/-- The locals at the start of the handler body, before any attempt. -/
def initialState (cache : Cache) : LoopState :=
  { cache := cache
    xmlData := none
    useCache := false
    attempts := 0
    success := false
    thrown := none
    fetchCalls := 0
    waits := 0 }

/-- The first part of the handler body: serve the fresh cache or run the retry loop. -/
def obtainXml (env : Env) (fuel : Nat) (cache : Cache) : Option LoopState :=
  if fresh env cache then
    some { initialState cache with xmlData := cache.cachedXmlData }
  else
    whileLoop env fuel (initialState cache)

/-! ## The request and the response -/

/-- The list `currencies` of supported codes, the default for `to_currency`. -/
def currencies : List String :=
  ["USD", "JPY", "BGN", "CZK", "DKK", "GBP", "HUF", "PLN", "RON", "SEK", "CHF", "ISK", "NOK",
   "TRY", "AUD", "BRL", "CAD", "CNY", "HKD", "IDR", "ILS", "INR", "KRW", "MXN", "MYR", "NZD",
   "PHP", "SGD", "THB", "ZAR", "EUR"]

/-- The query parameters of a request, each absent or a string. -/
structure Request where
  from_currency : Option String
  to_currency : Option String
  amount : Option String
  deriving DecidableEq

/-- The value `fromCurrency`: `req.query.from_currency || 'USD'`. -/
def fromCurrency (req : Request) : String :=
  match req.from_currency with
  | some s => if s ≠ "" then s else "USD"
  | none => "USD"

/-- The value `toCurrencies`: the parameter split at commas, or the supported list. -/
def toCurrencies (req : Request) : List String :=
  match req.to_currency with
  | some s => if s ≠ "" then split s ',' else currencies
  | none => currencies

/-- The value `amount`: `parseFloat(req.query.amount) || 1`. -/
def amount (req : Request) : Num :=
  if (parseFloat req.amount).truthy then parseFloat req.amount else Num.fin 1

/-- The object passed to `res.json` on success. -/
structure Response where
  from_currency : String
  amount : Num
  date : String
  conversions : List Conversion
  deriving DecidableEq

/-- The second part of the handler body, from `xml2js.parseStringPromise(xmlData)` to the
argument of `res.json`. -/
def respond (xml2js : Xml2js) (req : Request) (xmlData : Option String) (useCache : Bool) :
    Except Failure Response :=
  match xml2js xmlData with
  | Except.error message => Except.error (Failure.error message)
  | Except.ok result =>
    match dayCube result with
    | Except.error e => Except.error e
    | Except.ok day =>
      match rates day.Cube with
      | Except.error e => Except.error e
      | Except.ok rates =>
        match defined day.attrs with
        | Except.error e => Except.error e
        | Except.ok dayAttrs =>
          match defined (dayAttrs.lookup "time") with
          | Except.error e => Except.error e
          | Except.ok isoDate =>
            let formattedDate :=
              if useCache then formatEuropeanDate isoDate ++ outdatedMarker
              else formatEuropeanDate isoDate
            match conversions rates (fromCurrency req) (amount req) (toCurrencies req) with
            | Except.error e => Except.error e
            | Except.ok conversions =>
              Except.ok
                { from_currency := fromCurrency req
                  amount := amount req
                  date := formattedDate
                  conversions := conversions }

/-- What one request leaves behind: the globals, the effects, and the reply (the argument of
`res.json`, or the failure reported with status 500). -/
structure Outcome where
  cache : Cache
  fetchCalls : Nat
  waits : Nat
  useCache : Bool
  response : Except Failure Response
  deriving DecidableEq

/-- The handler of `GET /convert`. -/
def convert (xml2js : Xml2js) (env : Env) (fuel : Nat) (cache : Cache) (req : Request) :
    Option Outcome :=
  match obtainXml env fuel cache with
  | none => none
  | some s =>
    some
      { cache := s.cache
        fetchCalls := s.fetchCalls
        waits := s.waits
        useCache := s.useCache
        response :=
          match s.thrown with
          | some e => Except.error e
          | none => respond xml2js req s.xmlData s.useCache }

/-! ## Derived notions used to state properties -/

/-- The rate table the handler builds from a payload: the first three steps of `respond`
(parse, reach the dated `Cube`, fill `rates`). -/
def rateTable (xml2js : Xml2js) (xmlData : Option String) : Except Failure Rates :=
  match xml2js xmlData with
  | Except.error message => Except.error (Failure.error message)
  | Except.ok result =>
    match dayCube result with
    | Except.error e => Except.error e
    | Except.ok day => rates day.Cube

/-- The list reached by the path envelope, outer `Cube`, dated `Cube`, currency `Cube` list,
when every step of it is present. -/
def cubePath (result : Option Xml2jsResult) : Option (List RateCube) :=
  result.bind fun r =>
    r.envelope.bind fun envelope =>
      envelope.Cube.bind fun outerList =>
        outerList.head?.bind fun outer =>
          outer.Cube.bind fun dayList =>
            dayList.head?.bind fun day => day.Cube

/-- The dated `Cube` reached by the path envelope, outer `Cube`, dated `Cube`, when every step
of it is present. -/
def dayPath (result : Option Xml2jsResult) : Option DayCube :=
  result.bind fun r =>
    r.envelope.bind fun envelope =>
      envelope.Cube.bind fun outerList =>
        outerList.head?.bind fun outer =>
          outer.Cube.bind fun dayList => dayList.head?

/-- The key under which an entry is stored: its `currency` attribute as a property key. -/
def RateCube.key (attrs : List (String × String)) : String :=
  interpolate (attrs.lookup "currency")

/-- The code is a key of the table and its rate is a number other than zero. -/
def HasUsableRate (table : Rates) (code : String) : Prop :=
  ∃ n : Num, table code = some n ∧ n ≠ Num.nan ∧ n ≠ Num.fin 0

/-! ## Sample data -/

/-- A small feed in the shape the upstream publishes. -/
def sampleFeed : String :=
  "<gesmes:Envelope><Cube><Cube time='2024-01-15'><Cube currency='USD' rate='1.0850'/><Cube currency='JPY' rate='160.77'/></Cube></Cube></gesmes:Envelope>"

/-- The currency entries of `sampleFeed`. -/
def sampleCubes : List RateCube :=
  [{ attrs := some [("currency", "USD"), ("rate", "1.0850")] },
   { attrs := some [("currency", "JPY"), ("rate", "160.77")] }]

/-- The document object for a feed with one dated `Cube` holding the given entries. -/
def documentOf (time : String) (cubes : List RateCube) : Xml2jsResult :=
  { envelope := some { Cube := some [{ Cube := some [{ attrs := some [("time", time)], Cube := some cubes }] }] } }

/-- A stand-in for the XML library that agrees with it on the texts used below: the sample
feed, the empty text (resolved with `null`), and text that is not XML at all. -/
def sampleXml2js : Xml2js
  | some text =>
    if text = sampleFeed then Except.ok (some (documentOf "2024-01-15" sampleCubes))
    else if text = "" then Except.ok none
    else Except.error "Non-whitespace before first tag."
  | none => Except.error "Cannot read properties of undefined (reading 'toString')"

/-- A cache filled with the sample feed at time zero. -/
def sampleCache : Cache :=
  { cachedXmlData := some sampleFeed, cacheTimestamp := some 0 }

/-- A request for 100 USD in JPY. -/
def sampleRequest : Request :=
  { from_currency := some "USD", to_currency := some "JPY", amount := some "100" }

/-- A world in which every call to the upstream is rejected and the clock stands at `t`. -/
def downEnv (t : Int) : Env :=
  { fetch := fun _ => FetchResult.rejected, now := fun _ => t }

/-- A world in which the first call is rejected, every later call returns the sample feed, and
the clock reads `t` plus one second per completed call. -/
def flakyEnv (t : Int) : Env :=
  { fetch := fun i => if i = 0 then FetchResult.rejected else FetchResult.ok sampleFeed
    now := fun k => t + 1000 * k }

/-- The empty cache of a freshly started process. -/
def emptyCache : Cache :=
  { cachedXmlData := none, cacheTimestamp := none }

/-- A world in which the first call returns, with a success status, a body that is not XML,
and every later call returns the sample feed; the clock is that of `flakyEnv 0`. -/
def poisonEnv : Env :=
  { fetch := fun i => if i = 0 then FetchResult.ok "not xml" else FetchResult.ok sampleFeed
    now := fun k => 0 + 1000 * k }

/-- A feed whose only entry is the currency `XAB` at the rate `1.1`. -/
def twoDecimalFeed : String :=
  "<gesmes:Envelope><Cube><Cube time='2024-01-15'><Cube currency='XAB' rate='1.1'/></Cube></Cube></gesmes:Envelope>"

/-- The entries of `twoDecimalFeed`. -/
def twoDecimalCubes : List RateCube :=
  [{ attrs := some [("currency", "XAB"), ("rate", "1.1")] }]

/-- A request for one euro in `XAB`. -/
def euroToXab : Request :=
  { from_currency := some "EUR", to_currency := some "XAB", amount := some "1" }

/-- A feed whose only entry is the currency `XXX` at the rate `0`. -/
def zeroRateFeed : String :=
  "<gesmes:Envelope><Cube><Cube time='2024-01-15'><Cube currency='XXX' rate='0'/></Cube></Cube></gesmes:Envelope>"

/-- The entries of `zeroRateFeed`. -/
def zeroRateCubes : List RateCube :=
  [{ attrs := some [("currency", "XXX"), ("rate", "0")] }]

/-- A request for one euro in `XXX`. -/
def euroToXxx : Request :=
  { from_currency := some "EUR", to_currency := some "XXX", amount := none }

/-- A request for one US dollar in the currency named `constructor`. -/
def dollarToConstructor : Request :=
  { from_currency := some "USD", to_currency := some "constructor", amount := none }

/-- A request for one US dollar in `XXX`. -/
def dollarToXxx : Request :=
  { from_currency := some "USD", to_currency := some "XXX", amount := none }

/-- A stand-in for the XML library on a payload whose document is `doc`. -/
def resolvesTo (doc : Xml2jsResult) : Xml2js :=
  fun _ => Except.ok (some doc)

/-- A feed that lists the euro itself, at rate 2. -/
def euroFeed : String :=
  "<gesmes:Envelope><Cube><Cube time='2024-01-15'><Cube currency='EUR' rate='2'/></Cube></Cube></gesmes:Envelope>"

/-- The entries of `euroFeed`. -/
def euroCubes : List RateCube :=
  [{ attrs := some [("currency", "EUR"), ("rate", "2")] }]

/-- A feed with a numeric rate for `USD` and the text `N/A` as the rate of `XXX`. -/
def brokenRateFeed : String :=
  "<gesmes:Envelope><Cube><Cube time='2024-01-15'><Cube currency='USD' rate='1.0850'/><Cube currency='XXX' rate='N/A'/></Cube></Cube></gesmes:Envelope>"

/-- The entries of `brokenRateFeed`. -/
def brokenRateCubes : List RateCube :=
  [{ attrs := some [("currency", "USD"), ("rate", "1.0850")] },
   { attrs := some [("currency", "XXX"), ("rate", "N/A")] }]

/-- A request for one US dollar in euros. -/
def dollarToEuro : Request :=
  { from_currency := some "USD", to_currency := some "EUR", amount := none }

set_option maxRecDepth 100000

/-! ## The retry loop -/

theorem whileLoop_of_guard_false (env : Env) (fuel : Nat) (s : LoopState)
    (h : loopGuard s = false) : whileLoop env fuel s = some s := by
  cases fuel <;> simp [whileLoop, h]

theorem loopBody_ok (env : Env) (s : LoopState) (body : String)
    (h : env.fetch s.fetchCalls = FetchResult.ok body) :
    loopBody env s =
      { s with
        fetchCalls := s.fetchCalls + 1
        xmlData := some body
        cache := { cachedXmlData := some body, cacheTimestamp := some (env.now (s.fetchCalls + 1)) }
        success := true } := by
  simp [loopBody, h]

theorem loopBody_failed (env : Env) (s : LoopState)
    (h : (env.fetch s.fetchCalls).failed = true) :
    loopBody env s =
      if s.attempts + 1 = maxAttempts then
        if truthyString s.cache.cachedXmlData
            && decide (env.now (s.fetchCalls + 1) - timestampNumber s.cache.cacheTimestamp
                < MAX_CACHE_AGE) then
          { s with
            fetchCalls := s.fetchCalls + 1
            attempts := s.attempts + 1
            xmlData := s.cache.cachedXmlData
            useCache := true }
        else
          { s with
            fetchCalls := s.fetchCalls + 1
            attempts := s.attempts + 1
            thrown := some (Failure.error noCachedDataMessage) }
      else
        { s with
          fetchCalls := s.fetchCalls + 1
          attempts := s.attempts + 1
          waits := s.waits + 1 } := by
  unfold loopBody
  cases hf : env.fetch s.fetchCalls <;> simp_all [FetchResult.failed]

/-- The retry loop stops at the first attempt that succeeds. -/
theorem whileLoop_first_success (env : Env) (fuel : Nat) (cache : Cache) (k : Nat) (body : String)
    (hfuel : maxAttempts ≤ fuel) (hk : k < maxAttempts)
    (hfail : ∀ i, i < k → (env.fetch i).failed = true)
    (hok : env.fetch k = FetchResult.ok body) :
    whileLoop env fuel (initialState cache) =
      some
        { cache := { cachedXmlData := some body, cacheTimestamp := some (env.now (k + 1)) }
          xmlData := some body
          useCache := false
          attempts := k
          success := true
          thrown := none
          fetchCalls := k + 1
          waits := k } := by
  obtain ⟨n, rfl⟩ : ∃ n, fuel = n + 3 := ⟨fuel - 3, by simp [maxAttempts] at hfuel; omega⟩
  simp only [maxAttempts] at hk
  interval_cases k
  · simp [whileLoop, loopGuard, initialState, maxAttempts, loopBody_ok, hok,
      whileLoop_of_guard_false]
  · have h0 := hfail 0 (by omega)
    simp [whileLoop, loopGuard, initialState, maxAttempts, loopBody_ok, loopBody_failed, h0, hok,
      whileLoop_of_guard_false]
  · have h0 := hfail 0 (by omega)
    have h1 := hfail 1 (by omega)
    simp [whileLoop, loopGuard, initialState, maxAttempts, loopBody_ok, loopBody_failed, h0, h1,
      hok, whileLoop_of_guard_false]

/-- The retry loop after three failed attempts. -/
theorem whileLoop_all_failed (env : Env) (fuel : Nat) (cache : Cache)
    (hfuel : maxAttempts ≤ fuel)
    (hfail : ∀ i, i < maxAttempts → (env.fetch i).failed = true) :
    whileLoop env fuel (initialState cache) =
      some
        (if truthyString cache.cachedXmlData
            && decide (env.now 3 - timestampNumber cache.cacheTimestamp < MAX_CACHE_AGE) then
          { cache := cache
            xmlData := cache.cachedXmlData
            useCache := true
            attempts := 3
            success := false
            thrown := none
            fetchCalls := 3
            waits := 2 }
        else
          { cache := cache
            xmlData := none
            useCache := false
            attempts := 3
            success := false
            thrown := some (Failure.error noCachedDataMessage)
            fetchCalls := 3
            waits := 2 }) := by
  obtain ⟨n, rfl⟩ : ∃ n, fuel = n + 3 := ⟨fuel - 3, by simp [maxAttempts] at hfuel; omega⟩
  have h0 := hfail 0 (by simp [maxAttempts])
  have h1 := hfail 1 (by simp [maxAttempts])
  have h2 := hfail 2 (by simp [maxAttempts])
  by_cases hc : truthyString cache.cachedXmlData = true
      ∧ env.now 3 - timestampNumber cache.cacheTimestamp < MAX_CACHE_AGE
  · simp [whileLoop, loopGuard, initialState, maxAttempts, loopBody_failed, h0, h1, h2,
      whileLoop_of_guard_false, hc]
  · simp [whileLoop, loopGuard, initialState, maxAttempts, loopBody_failed, h0, h1, h2,
      whileLoop_of_guard_false, hc]

/-- Either one of the first three attempts is the first to succeed, or all three fail. -/
theorem first_success_or_all_failed (env : Env) :
    (∃ k body, k < maxAttempts ∧ (∀ i, i < k → (env.fetch i).failed = true)
        ∧ env.fetch k = FetchResult.ok body)
      ∨ ∀ i, i < maxAttempts → (env.fetch i).failed = true := by
  have key : ∀ r : FetchResult, r.failed = true ∨ ∃ body, r = FetchResult.ok body := by
    intro r
    cases r <;> simp [FetchResult.failed]
  rcases key (env.fetch 0) with h0 | ⟨b, h0⟩
  · rcases key (env.fetch 1) with h1 | ⟨b, h1⟩
    · rcases key (env.fetch 2) with h2 | ⟨b, h2⟩
      · right
        intro i hi
        simp only [maxAttempts] at hi
        interval_cases i <;> assumption
      · left
        refine ⟨2, b, by simp [maxAttempts], ?_, h2⟩
        intro i hi
        interval_cases i <;> assumption
    · left
      refine ⟨1, b, by simp [maxAttempts], ?_, h1⟩
      intro i hi
      interval_cases i
      assumption
  · left
    exact ⟨0, b, by simp [maxAttempts], by intro i hi; omega, h0⟩

/-- A reply that is a success carries the formatted feed date, with the marker appended
exactly when the emergency cache was used. -/
theorem respond_date (xml2js : Xml2js) (req : Request) (xmlData : Option String)
    (useCache : Bool) (r : Response) (h : respond xml2js req xmlData useCache = Except.ok r) :
    ∃ isoDate : String,
      r.date = if useCache then formatEuropeanDate isoDate ++ outdatedMarker
        else formatEuropeanDate isoDate := by
  unfold respond at h
  split at h
  · exact absurd h (by simp)
  · split at h
    · exact absurd h (by simp)
    · split at h
      · exact absurd h (by simp)
      · split at h
        · exact absurd h (by simp)
        · split at h
          · exact absurd h (by simp)
          · rename_i isoDate _
            refine ⟨isoDate, ?_⟩
            generalize conversions _ _ _ _ = cv at h
            cases cv with
            | error e => exact absurd h (by simp)
            | ok cs =>
              simp only [Except.ok.injEq] at h
              rw [← h]

/-- The handler always ends once the loop is given room for three iterations. -/
theorem convert_total (xml2js : Xml2js) (env : Env) (fuel : Nat) (cache : Cache)
    (req : Request) (hfuel : maxAttempts ≤ fuel) :
    ∃ o, convert xml2js env fuel cache req = some o := by
  unfold convert obtainXml
  by_cases hfresh : fresh env cache = true
  · simp [hfresh]
  · simp only [hfresh]
    rcases first_success_or_all_failed env with ⟨k, body, hk, hfail, hok⟩ | hall
    · rw [whileLoop_first_success env fuel cache k body hfuel hk hfail hok]
      exact ⟨_, rfl⟩
    · rw [whileLoop_all_failed env fuel cache hfuel hall]
      exact ⟨_, rfl⟩

/-! ## C1 -/

/-- C1: when the cached payload is present (truthy) and younger than 8 hours at the start of the
request, the handler makes no call to `fetch` and no wait, leaves both cache variables as they
were, and replies from the cached payload with `useCache` false, so that a successful reply
carries the formatted date with no marker appended. -/
theorem fresh_cache_served_without_fetch (xml2js : Xml2js) (env : Env) (fuel : Nat)
    (cache : Cache) (req : Request)
    (hpresent : truthyString cache.cachedXmlData = true)
    (hyoung : env.now 0 - timestampNumber cache.cacheTimestamp < 8 * 60 * 60 * 1000) :
    convert xml2js env fuel cache req =
        some
          { cache := cache
            fetchCalls := 0
            waits := 0
            useCache := false
            response := respond xml2js req cache.cachedXmlData false }
      ∧ ∀ r, respond xml2js req cache.cachedXmlData false = Except.ok r →
          ∃ isoDate : String, r.date = formatEuropeanDate isoDate := by
  constructor
  · have hfresh : fresh env cache = true := by
      simp [fresh, hpresent, CACHE_DURATION]
      simpa using hyoung
    simp [convert, obtainXml, hfresh, initialState]
  · intro r hr
    obtain ⟨isoDate, h⟩ := respond_date xml2js req cache.cachedXmlData false r hr
    exact ⟨isoDate, by simpa using h⟩

/-- Witness for C1: the sample cache, one hour old, with the upstream down. -/
theorem fresh_cache_served_without_fetch_witness :
    truthyString sampleCache.cachedXmlData = true
      ∧ (downEnv 3600000).now 0 - timestampNumber sampleCache.cacheTimestamp < 8 * 60 * 60 * 1000
      ∧ convert sampleXml2js (downEnv 3600000) 3 sampleCache sampleRequest =
          some
            { cache := sampleCache
              fetchCalls := 0
              waits := 0
              useCache := false
              response := respond sampleXml2js sampleRequest sampleCache.cachedXmlData false } :=
  ⟨by decide, by decide,
    (fresh_cache_served_without_fetch sampleXml2js (downEnv 3600000) 3 sampleCache sampleRequest
      (by decide) (by decide)).1⟩

/-! ## C2 -/

/-- C2: when the cache is absent or not fresh at the start of the request, the handler ends
(given room for three iterations) having made at most 3 calls to `fetch` and one wait fewer than
calls; every call before the last one failed, so nothing is fetched after a success; if the
last call succeeded the cache holds its body with the time read after it, `useCache` is false
and the reply is built from that body; and if the last call failed, it was the third. -/
theorem retry_loop_bounds (xml2js : Xml2js) (env : Env) (fuel : Nat) (cache : Cache)
    (req : Request) (hfuel : maxAttempts ≤ fuel)
    (hstale : truthyString cache.cachedXmlData = false
      ∨ 8 * 60 * 60 * 1000 ≤ env.now 0 - timestampNumber cache.cacheTimestamp) :
    ∃ o : Outcome, convert xml2js env fuel cache req = some o
      ∧ o.fetchCalls ≤ 3
      ∧ 1 ≤ o.fetchCalls
      ∧ o.waits = o.fetchCalls - 1
      ∧ (∀ i, i + 1 < o.fetchCalls → (env.fetch i).failed = true)
      ∧ (∀ body, env.fetch (o.fetchCalls - 1) = FetchResult.ok body →
          o.cache = { cachedXmlData := some body, cacheTimestamp := some (env.now o.fetchCalls) }
            ∧ o.useCache = false
            ∧ o.response = respond xml2js req (some body) false)
      ∧ ((env.fetch (o.fetchCalls - 1)).failed = true → o.fetchCalls = 3) := by
  have hfresh : fresh env cache = false := by
    rcases hstale with h | h
    · simp [fresh, h]
    · simp only [fresh, CACHE_DURATION, Bool.and_eq_false_iff, decide_eq_false_iff_not, not_lt]
      right
      simpa using h
  rcases first_success_or_all_failed env with ⟨k, body, hk, hfail, hok⟩ | hall
  · have hloop := whileLoop_first_success env fuel cache k body hfuel hk hfail hok
    refine ⟨_, by simp only [convert, obtainXml, hfresh, hloop]; rfl, ?_⟩
    simp only [maxAttempts] at hk
    refine ⟨by simp; omega, by simp, by simp, ?_, ?_, ?_⟩
    · intro i hi
      exact hfail i (by simpa using hi)
    · intro b hb
      simp only [Nat.add_sub_cancel] at hb
      rw [hok] at hb
      cases hb
      simp
    · intro hf
      simp only [Nat.add_sub_cancel] at hf
      rw [hok] at hf
      simp [FetchResult.failed] at hf
  · have hloop := whileLoop_all_failed env fuel cache hfuel hall
    refine ⟨_, by simp only [convert, obtainXml, hfresh, hloop]; rfl, ?_⟩
    have h2 := hall 2 (by simp [maxAttempts])
    split
    · refine ⟨by simp, by simp, by simp, ?_, ?_, by simp⟩
      · intro i hi
        exact hall i (by simp [maxAttempts]; simp at hi; omega)
      · intro b hb
        simp only [Nat.add_one_sub_one] at hb
        rw [hb] at h2
        simp [FetchResult.failed] at h2
    · refine ⟨by simp, by simp, by simp, ?_, ?_, by simp⟩
      · intro i hi
        exact hall i (by simp [maxAttempts]; simp at hi; omega)
      · intro b hb
        simp only [Nat.add_one_sub_one] at hb
        rw [hb] at h2
        simp [FetchResult.failed] at h2

/-- Witness for C2: an empty cache, a first call that is rejected and a second that succeeds. -/
theorem retry_loop_bounds_witness :
    maxAttempts ≤ 3
      ∧ (truthyString emptyCache.cachedXmlData = false
        ∨ 8 * 60 * 60 * 1000 ≤ (flakyEnv 0).now 0 - timestampNumber emptyCache.cacheTimestamp)
      ∧ ∃ o : Outcome, convert sampleXml2js (flakyEnv 0) 3 emptyCache sampleRequest = some o
          ∧ o.fetchCalls ≤ 3
          ∧ 1 ≤ o.fetchCalls
          ∧ o.waits = o.fetchCalls - 1
          ∧ (∀ i, i + 1 < o.fetchCalls → ((flakyEnv 0).fetch i).failed = true)
          ∧ (∀ body, (flakyEnv 0).fetch (o.fetchCalls - 1) = FetchResult.ok body →
              o.cache =
                  { cachedXmlData := some body
                    cacheTimestamp := some ((flakyEnv 0).now o.fetchCalls) }
                ∧ o.useCache = false
                ∧ o.response = respond sampleXml2js sampleRequest (some body) false)
          ∧ (((flakyEnv 0).fetch (o.fetchCalls - 1)).failed = true → o.fetchCalls = 3) :=
  ⟨by decide, Or.inl (by decide),
    retry_loop_bounds sampleXml2js (flakyEnv 0) 3 emptyCache sampleRequest (by decide)
      (Or.inl (by decide))⟩

/-! ## C3 -/

/-- C3: when the cache is absent or not fresh and all 3 attempts fail, then (a) if the cached
payload is present (truthy) and younger than 48 hours at the time read after the third failure,
the handler replies from the cached payload with `useCache` true, leaves the cache as it was,
and a successful reply carries a date that ends with the outdated marker; (b) otherwise the
reply is the failure with the message that no cached data is available, and no conversion is
returned. Either way 3 calls and 2 waits were made. -/
theorem all_attempts_failed (xml2js : Xml2js) (env : Env) (fuel : Nat) (cache : Cache)
    (req : Request) (hfuel : maxAttempts ≤ fuel)
    (hstale : truthyString cache.cachedXmlData = false
      ∨ 8 * 60 * 60 * 1000 ≤ env.now 0 - timestampNumber cache.cacheTimestamp)
    (hfail : ∀ i, i < 3 → (env.fetch i).failed = true) :
    ((truthyString cache.cachedXmlData = true
          ∧ env.now 3 - timestampNumber cache.cacheTimestamp < 48 * 60 * 60 * 1000) →
        convert xml2js env fuel cache req =
            some
              { cache := cache
                fetchCalls := 3
                waits := 2
                useCache := true
                response := respond xml2js req cache.cachedXmlData true }
          ∧ ∀ r, respond xml2js req cache.cachedXmlData true = Except.ok r →
              ∃ front : String, r.date = front ++ " (Outdated data)")
      ∧ (¬(truthyString cache.cachedXmlData = true
          ∧ env.now 3 - timestampNumber cache.cacheTimestamp < 48 * 60 * 60 * 1000) →
        convert xml2js env fuel cache req =
          some
            { cache := cache
              fetchCalls := 3
              waits := 2
              useCache := false
              response := Except.error (Failure.error noCachedDataMessage) }) := by
  have hfresh : fresh env cache = false := by
    rcases hstale with h | h
    · simp [fresh, h]
    · simp only [fresh, CACHE_DURATION, Bool.and_eq_false_iff, decide_eq_false_iff_not, not_lt]
      right
      simpa using h
  have hloop := whileLoop_all_failed env fuel cache hfuel hfail
  constructor
  · intro hc
    have hc2 : (truthyString cache.cachedXmlData
        && decide (env.now 3 - timestampNumber cache.cacheTimestamp < MAX_CACHE_AGE)) = true := by
      simp only [MAX_CACHE_AGE, Bool.and_eq_true, decide_eq_true_eq]
      exact ⟨hc.1, by simpa using hc.2⟩
    constructor
    · simp only [convert, obtainXml, hfresh, hloop, hc2]
      rfl
    · intro r hr
      obtain ⟨isoDate, h⟩ := respond_date xml2js req cache.cachedXmlData true r hr
      exact ⟨formatEuropeanDate isoDate, by simpa [outdatedMarker] using h⟩
  · intro hc
    have hc2 : (truthyString cache.cachedXmlData
        && decide (env.now 3 - timestampNumber cache.cacheTimestamp < MAX_CACHE_AGE)) = false := by
      simp only [MAX_CACHE_AGE, Bool.and_eq_false_iff, decide_eq_false_iff_not]
      by_cases h1 : truthyString cache.cachedXmlData = true
      · right
        intro h2
        exact hc ⟨h1, by simpa using h2⟩
      · left
        simpa using h1
    simp only [convert, obtainXml, hfresh, hloop, hc2]
    rfl

/-- Witness for C3: the sample cache, ten hours old, with the upstream down. -/
theorem all_attempts_failed_witness :
    maxAttempts ≤ 3
      ∧ (truthyString sampleCache.cachedXmlData = false
        ∨ 8 * 60 * 60 * 1000 ≤ (downEnv 36000000).now 0 - timestampNumber sampleCache.cacheTimestamp)
      ∧ (∀ i, i < 3 → ((downEnv 36000000).fetch i).failed = true)
      ∧ convert sampleXml2js (downEnv 36000000) 3 sampleCache sampleRequest =
          some
            { cache := sampleCache
              fetchCalls := 3
              waits := 2
              useCache := true
              response := respond sampleXml2js sampleRequest sampleCache.cachedXmlData true } :=
  ⟨by decide, Or.inr (by decide), fun _ _ => rfl,
    ((all_attempts_failed sampleXml2js (downEnv 36000000) 3 sampleCache sampleRequest (by decide)
      (Or.inr (by decide)) (fun _ _ => rfl)).1 ⟨by decide, by decide⟩).1⟩

/-! ## C4 -/

theorem respond_of_rateTable_error (xml2js : Xml2js) (req : Request) (xmlData : Option String)
    (useCache : Bool) (e : Failure) (h : rateTable xml2js xmlData = Except.error e) :
    respond xml2js req xmlData useCache = Except.error e := by
  unfold rateTable at h
  unfold respond
  cases hx : xml2js xmlData with
  | error m => simpa [hx] using h
  | ok result =>
    simp only [hx] at h ⊢
    cases hd : dayCube result with
    | error e1 => simpa [hd] using h
    | ok day =>
      simp only [hd] at h ⊢
      simp only [h]

/-- C4, as the claim states it, fails: with an empty cache and a first response that has a
success status but a body that is not XML, the reply and the final cache differ from those
of the same run with that attempt replaced by a rejected one. -/
theorem malformed_response_differs_from_failed_attempt :
    ¬ ∀ (xml2js : Xml2js) (env env1 : Env) (cache : Cache) (req : Request) (i : Nat)
        (body message : String),
        env.fetch i = FetchResult.ok body →
        xml2js (some body) = Except.error message →
        env1.fetch i = FetchResult.rejected →
        (∀ j, j ≠ i → env1.fetch j = env.fetch j) →
        (∀ k, env1.now k = env.now k) →
        (convert xml2js env 3 cache req).map (fun o => (o.cache, o.response))
          = (convert xml2js env1 3 cache req).map (fun o => (o.cache, o.response)) := by
  intro h
  have h1 := h sampleXml2js poisonEnv (flakyEnv 0) emptyCache sampleRequest 0 "not xml"
    "Non-whitespace before first tag." (by decide) rfl (by decide)
    (by intro j hj; simp [poisonEnv, flakyEnv, hj]) (by intro k; rfl)
  revert h1
  decide!

/-- C4, amended: a response with a success status is a success for the retry loop whether or
not its body can be turned into a rate table. If the attempt number `k` (from zero, below 3) is
the first with a success status and no rate table can be built from its body, the body and the
time read after it replace the cache, no further attempt is made (`k + 1` calls, `k` waits),
the emergency cache is not used, and the reply is the failure raised while building the
table. -/
theorem malformed_success_is_cached (xml2js : Xml2js) (env : Env) (fuel : Nat) (cache : Cache)
    (req : Request) (k : Nat) (body : String) (e : Failure)
    (hfuel : maxAttempts ≤ fuel)
    (hstale : truthyString cache.cachedXmlData = false
      ∨ 8 * 60 * 60 * 1000 ≤ env.now 0 - timestampNumber cache.cacheTimestamp)
    (hk : k < 3)
    (hfail : ∀ i, i < k → (env.fetch i).failed = true)
    (hok : env.fetch k = FetchResult.ok body)
    (hbad : rateTable xml2js (some body) = Except.error e) :
    convert xml2js env fuel cache req =
      some
        { cache := { cachedXmlData := some body, cacheTimestamp := some (env.now (k + 1)) }
          fetchCalls := k + 1
          waits := k
          useCache := false
          response := Except.error e } := by
  have hfresh : fresh env cache = false := by
    rcases hstale with h | h
    · simp [fresh, h]
    · simp only [fresh, CACHE_DURATION, Bool.and_eq_false_iff, decide_eq_false_iff_not, not_lt]
      right
      simpa using h
  have hloop := whileLoop_first_success env fuel cache k body hfuel hk hfail hok
  simp only [convert, obtainXml, hfresh, hloop]
  simp [respond_of_rateTable_error xml2js req (some body) false e hbad]

/-- Witness for C4 amended: the body that is not XML, met at the first call. -/
theorem malformed_success_is_cached_witness :
    maxAttempts ≤ 3
      ∧ (truthyString emptyCache.cachedXmlData = false
        ∨ 8 * 60 * 60 * 1000 ≤ poisonEnv.now 0 - timestampNumber emptyCache.cacheTimestamp)
      ∧ 0 < 3
      ∧ (∀ i, i < 0 → (poisonEnv.fetch i).failed = true)
      ∧ poisonEnv.fetch 0 = FetchResult.ok "not xml"
      ∧ rateTable sampleXml2js (some "not xml")
          = Except.error (Failure.error "Non-whitespace before first tag.")
      ∧ convert sampleXml2js poisonEnv 3 emptyCache sampleRequest =
          some
            { cache := { cachedXmlData := some "not xml", cacheTimestamp := some (poisonEnv.now (0 + 1)) }
              fetchCalls := 0 + 1
              waits := 0
              useCache := false
              response := Except.error (Failure.error "Non-whitespace before first tag.") } :=
  ⟨by decide, Or.inl (by decide), by decide, fun i hi => absurd hi (Nat.not_lt_zero i), by decide,
    rfl,
    malformed_success_is_cached sampleXml2js poisonEnv 3 emptyCache sampleRequest 0 "not xml"
      (Failure.error "Non-whitespace before first tag.") (by decide) (Or.inl (by decide))
      (by decide) (fun i hi => absurd hi (Nat.not_lt_zero i)) (by decide) rfl⟩

/-! ## C5 -/

/-- C5 at the rate `1.1` and at the amount `0.07`: the feed rate `1.1` is a multiple of 0.01, yet
one euro is answered with the exchange rate and converted amount `1.11`, because `1.1 * 100`
is `110.00000000000001` in binary64 and its ceiling is 111; likewise the amount `0.07` at
the rate 1 is answered with `0.08`. -/
theorem two_decimal_rate_is_raised :
    parseFloat (some "1.1") = Num.fin (2476979795053773 / 2251799813685248)
      ∧ (parseFloat (some "1.1")).mul (Num.fin 100) = Num.fin (110 + 1 / 2 ^ 46)
      ∧ respond (resolvesTo (documentOf "2024-01-15" twoDecimalCubes)) euroToXab
          (some twoDecimalFeed) false =
          Except.ok
            { from_currency := "EUR"
              amount := Num.fin 1
              date := "15/01/2024"
              conversions :=
                [{ to_currency := "XAB"
                   exchange_rate := parseFloat (some "1.11")
                   converted_amount := parseFloat (some "1.11") }] }
      ∧ parseFloat (some "1.11") ≠ parseFloat (some "1.1")
      ∧ conversion initialRates "EUR" (parseFloat (some "0.07")) "EUR" =
          Except.ok
            { to_currency := "EUR"
              exchange_rate := Num.fin 1
              converted_amount := parseFloat (some "0.08") }
      ∧ parseFloat (some "0.08") ≠ parseFloat (some "0.07") := by
  refine ⟨?_, ?_, ?_, ?_, ?_, ?_⟩ <;> decide!

/-! ## C6 -/

theorem truthy_of_usable (table : Rates) (code : String) (h : HasUsableRate table code) :
    (table.get code).truthy = true := by
  obtain ⟨n, hn, hnan, hzero⟩ := h
  unfold Rates.get
  rw [hn]
  cases n with
  | nan => exact absurd rfl hnan
  | inf s => rfl
  | fin q =>
    have hq : q ≠ 0 := fun hq0 => hzero (by rw [hq0])
    simp [Val.truthy, Num.truthy, hq]

theorem falsy_of_nan (table : Rates) (code : String) (h : table code = some Num.nan) :
    (table.get code).truthy = false := by
  simp [Rates.get, h, Val.truthy, Num.truthy]

theorem conversion_error (table : Rates) (fromCode toCode : String) (x : Num)
    (h : (table.get fromCode).truthy = false ∨ (table.get toCode).truthy = false) :
    conversion table fromCode x toCode
      = Except.error (Failure.error (notAvailableMessage fromCode toCode)) := by
  rcases h with h | h <;> simp [conversion, getExchangeRate, h]

theorem conversion_ok (table : Rates) (fromCode toCode : String) (x : Num)
    (hf : (table.get fromCode).truthy = true) (ht : (table.get toCode).truthy = true) :
    ∃ c, conversion table fromCode x toCode = Except.ok c := by
  simp [conversion, getExchangeRate, hf, ht]

theorem notAvailableMessage_mentions (fromCode toCode : String) :
    Mentions (notAvailableMessage fromCode toCode) fromCode
      ∧ Mentions (notAvailableMessage fromCode toCode) toCode := by
  constructor
  · exact ⟨"One of the currencies (", " or " ++ toCode ++ ") is not available in the ECB data.",
      by simp [notAvailableMessage, String.append_assoc]⟩
  · exact ⟨"One of the currencies (" ++ fromCode ++ " or ",
      ") is not available in the ECB data.", by simp [notAvailableMessage, String.append_assoc]⟩

/-- The array `conversions` holds, in order, the result of the callback at each code. -/
theorem conversions_ok_iff (table : Rates) (fromCode : String) (x : Num) (codes : List String)
    (cs : List Conversion) :
    conversions table fromCode x codes = Except.ok cs
      ↔ List.Forall₂ (fun code c => conversion table fromCode x code = Except.ok c) codes cs := by
  induction codes generalizing cs with
  | nil =>
    constructor
    · intro h
      simp only [conversions, Except.ok.injEq] at h
      subst h
      exact List.Forall₂.nil
    · intro h
      cases h
      rfl
  | cons code rest ih =>
    constructor
    · intro h
      simp only [conversions] at h
      cases hc : conversion table fromCode x code with
      | error e => simp [hc] at h
      | ok c =>
        cases hr : conversions table fromCode x rest with
        | error e => simp [hc, hr] at h
        | ok rs =>
          simp only [hc, hr, Except.ok.injEq] at h
          subst h
          exact List.Forall₂.cons hc ((ih rs).mp hr)
    · intro h
      cases h with
      | cons hc hrest =>
        simp [conversions, hc, (ih _).mpr hrest]

theorem conversions_ok_of_truthy (table : Rates) (fromCode : String) (x : Num)
    (codes : List String) (hf : (table.get fromCode).truthy = true)
    (ht : ∀ c ∈ codes, (table.get c).truthy = true) :
    ∃ cs, conversions table fromCode x codes = Except.ok cs := by
  induction codes with
  | nil => exact ⟨[], rfl⟩
  | cons c rest ih =>
    obtain ⟨r, hr⟩ := conversion_ok table fromCode c x hf (ht c (List.mem_cons_self c rest))
    obtain ⟨cs, hcs⟩ := ih fun d hd => ht d (List.mem_cons_of_mem c hd)
    exact ⟨r :: cs, by simp [conversions, hr, hcs]⟩

theorem conversions_error_of_falsy (table : Rates) (fromCode : String) (x : Num)
    (codes : List String) (hne : codes ≠ [])
    (h : (table.get fromCode).truthy = false ∨ ∃ c ∈ codes, (table.get c).truthy = false) :
    ∃ t ∈ codes,
      ((table.get fromCode).truthy = false ∨ (table.get t).truthy = false)
        ∧ conversions table fromCode x codes
          = Except.error (Failure.error (notAvailableMessage fromCode t)) := by
  induction codes with
  | nil => exact absurd rfl hne
  | cons c rest ih =>
    by_cases hc : (table.get fromCode).truthy = false ∨ (table.get c).truthy = false
    · exact ⟨c, List.mem_cons_self c rest, hc,
        by simp [conversions, conversion_error table fromCode c x hc]⟩
    · have hf : (table.get fromCode).truthy = true := by
        by_contra hcon
        exact hc (Or.inl (by simpa using hcon))
      have ht : (table.get c).truthy = true := by
        by_contra hcon
        exact hc (Or.inr (by simpa using hcon))
      obtain ⟨r, hr⟩ := conversion_ok table fromCode c x hf ht
      have hrest : ∃ d ∈ rest, (table.get d).truthy = false := by
        rcases h with h | ⟨d, hd, hdf⟩
        · rw [hf] at h
          exact absurd h (by simp)
        · rcases List.mem_cons.mp hd with rfl | hd
          · rw [ht] at hdf
            exact absurd hdf (by simp)
          · exact ⟨d, hd, hdf⟩
      have hne1 : rest ≠ [] := by
        obtain ⟨d, hd, _⟩ := hrest
        exact List.ne_nil_of_mem hd
      obtain ⟨t, htm, htf, hte⟩ := ih hne1 (Or.inr hrest)
      exact ⟨t, List.mem_cons_of_mem c htm, htf, by simp [conversions, hr, hte]⟩

/-- C6 at two requests. (a) With the feed entry `XXX` at rate `0`, both `EUR` and `XXX` are keys
of the table, and the request from `EUR` to `XXX` still fails with the not-available error.
(b) With the sample feed, `constructor` is not a key of the table, and the request from `USD` to
`constructor` still succeeds, with `NaN` as rate and amount. The guard tests the truthiness of
`rates[code]`, not the presence of the key. -/
theorem existence_check_tests_truthiness :
    rateTable (resolvesTo (documentOf "2024-01-15" zeroRateCubes)) (some zeroRateFeed)
        = Except.ok (initialRates.set "XXX" (Num.fin 0))
      ∧ (initialRates.set "XXX" (Num.fin 0)) "EUR" = some (Num.fin 1)
      ∧ (initialRates.set "XXX" (Num.fin 0)) "XXX" = some (Num.fin 0)
      ∧ respond (resolvesTo (documentOf "2024-01-15" zeroRateCubes)) euroToXxx
          (some zeroRateFeed) false
          = Except.error (Failure.error (notAvailableMessage "EUR" "XXX"))
      ∧ rateTable sampleXml2js (some sampleFeed)
          = Except.ok ((initialRates.set "USD" (parseFloat (some "1.0850"))).set "JPY"
              (parseFloat (some "160.77")))
      ∧ ((initialRates.set "USD" (parseFloat (some "1.0850"))).set "JPY"
          (parseFloat (some "160.77"))) "constructor" = none
      ∧ respond sampleXml2js dollarToConstructor (some sampleFeed) false =
          Except.ok
            { from_currency := "USD"
              amount := Num.fin 1
              date := "15/01/2024"
              conversions :=
                [{ to_currency := "constructor"
                   exchange_rate := Num.nan
                   converted_amount := Num.nan }] } := by
  have hp : parseFloat (some "0") = Num.fin 0 := by decide!
  refine ⟨?_, ?_, ?_, ?_, ?_, ?_, ?_⟩
  · simp [rateTable, resolvesTo, documentOf, dayCube, defined, rates, zeroRateCubes, addCubes,
      addCube, interpolate, List.lookup, hp]
  · decide!
  · decide!
  · decide!
  · have hparse : sampleXml2js (some sampleFeed)
        = Except.ok (some (documentOf "2024-01-15" sampleCubes)) := rfl
    simp [rateTable, hparse, documentOf, dayCube, defined, rates, sampleCubes, addCubes,
      addCube, interpolate, List.lookup]
  · decide!
  · decide!

/-! ## C7 -/

theorem rateTable_eq (xml2js : Xml2js) (xmlData : Option String) (result : Option Xml2jsResult)
    (h : xml2js xmlData = Except.ok result) :
    rateTable xml2js xmlData =
      match cubePath result with
      | none => Except.error Failure.typeError
      | some cubes => addCubes initialRates cubes := by
  unfold rateTable
  simp only [h]
  rcases result with _ | ⟨⟨_ | ⟨⟨_ | outerList⟩⟩⟩⟩
  · rfl
  · rfl
  · rfl
  · rcases outerList with _ | ⟨⟨_ | dayList⟩, _⟩
    · rfl
    · rfl
    · rcases dayList with _ | ⟨⟨attrs, _ | cubes⟩, _⟩
      · rfl
      · rfl
      · rfl

theorem set_apply_of_ne (r : Rates) (key k : String) (v : Num) (h : key ≠ k) :
    r.set key v k = r k := by
  unfold Rates.set
  split
  · rfl
  · simp [Ne.symm h]

theorem set_isSome (r : Rates) (key k : String) (v : Num) (h : (r k).isSome = true) :
    (r.set key v k).isSome = true := by
  unfold Rates.set
  split
  · exact h
  · by_cases hk : k = key <;> simp [hk, h]

theorem set_apply_self (r : Rates) (key : String) (v : Num) (h : key ≠ "__proto__") :
    r.set key v key = some v := by
  simp [Rates.set, h]

theorem addCubes_spec (cubes : List RateCube) :
    ∀ r t : Rates, addCubes r cubes = Except.ok t →
      (∀ k, (∀ cube ∈ cubes, ∀ attrs, cube.attrs = some attrs → RateCube.key attrs ≠ k) →
          t k = r k)
        ∧ (∀ k, (r k).isSome = true → (t k).isSome = true)
        ∧ (∀ cube ∈ cubes, ∀ attrs, cube.attrs = some attrs →
            RateCube.key attrs ≠ "__proto__" → (t (RateCube.key attrs)).isSome = true) := by
  induction cubes with
  | nil =>
    intro r t h
    simp only [addCubes, Except.ok.injEq] at h
    subst h
    exact ⟨fun _ _ => rfl, fun _ hk => hk, fun cube hc => absurd hc (List.not_mem_nil cube)⟩
  | cons cube rest ih =>
    intro r t h
    rcases cube with ⟨_ | a⟩
    · simp [addCubes, addCube, defined] at h
    · simp only [addCubes, addCube, defined] at h
      obtain ⟨h1, h2, h3⟩ := ih _ t h
      refine ⟨?_, ?_, ?_⟩
      · intro k hk
        rw [h1 k fun c hc attrs hattrs => hk c (List.mem_cons_of_mem _ hc) attrs hattrs]
        exact set_apply_of_ne r _ k _ (hk _ (List.mem_cons_self _ _) a rfl)
      · intro k hk
        exact h2 k (set_isSome r _ k _ hk)
      · intro c hc attrs hattrs hproto
        rcases List.mem_cons.mp hc with rfl | hc
        · simp only [Option.some.injEq] at hattrs
          subst hattrs
          apply h2
          have := set_apply_self r (interpolate (List.lookup "currency" a))
            (parseFloat (List.lookup "rate" a)) hproto
          simp [RateCube.key, this]
        · exact h3 c hc attrs hattrs hproto

/-- C7, as the claim states it, fails: a feed that lists the euro itself at rate 2 parses into
a table whose `EUR` rate is 2, not 1. -/
theorem euro_entry_overwrites_base_rate :
    ¬ ∀ (xml2js : Xml2js) (xmlData : Option String) (table : Rates),
        rateTable xml2js xmlData = Except.ok table → table "EUR" = some (Num.fin 1) := by
  intro h
  have hp : parseFloat (some "2") = Num.fin 2 := by decide!
  have h1 := h (resolvesTo (documentOf "2024-01-15" euroCubes)) (some euroFeed)
    (initialRates.set "EUR" (Num.fin 2)) (by
      simp [rateTable, resolvesTo, documentOf, dayCube, defined, rates, euroCubes, addCubes,
        addCube, interpolate, List.lookup, hp])
  revert h1
  decide!

/-- C7, amended: for every payload that parses into a table, the table has the key `EUR`; its
rate is exactly 1 whenever no entry of the feed has the currency `EUR` (an entry that has
overwrites it); and every entry of the feed whose currency is not `__proto__` is a key of
the table. -/
theorem rateTable_euro_and_entries (xml2js : Xml2js) (xmlData : Option String)
    (result : Option Xml2jsResult) (table : Rates)
    (hparse : xml2js xmlData = Except.ok result)
    (htable : rateTable xml2js xmlData = Except.ok table) :
    ∃ cubes, cubePath result = some cubes
      ∧ (table "EUR").isSome = true
      ∧ ((∀ cube ∈ cubes, ∀ attrs, cube.attrs = some attrs → RateCube.key attrs ≠ "EUR") →
          table "EUR" = some (Num.fin 1))
      ∧ (∀ cube ∈ cubes, ∀ attrs, cube.attrs = some attrs →
          RateCube.key attrs ≠ "__proto__" → (table (RateCube.key attrs)).isSome = true) := by
  rw [rateTable_eq xml2js xmlData result hparse] at htable
  cases hpath : cubePath result with
  | none => simp [hpath] at htable
  | some cubes =>
    simp only [hpath] at htable
    obtain ⟨h1, h2, h3⟩ := addCubes_spec cubes initialRates table htable
    refine ⟨cubes, rfl, h2 "EUR" (by decide), ?_, h3⟩
    intro hno
    rw [h1 "EUR" hno]
    decide

/-- Witness for C7 amended: the sample feed. -/
theorem rateTable_euro_and_entries_witness :
    sampleXml2js (some sampleFeed) = Except.ok (some (documentOf "2024-01-15" sampleCubes))
      ∧ rateTable sampleXml2js (some sampleFeed)
          = Except.ok ((initialRates.set "USD" (parseFloat (some "1.0850"))).set "JPY"
              (parseFloat (some "160.77")))
      ∧ ∃ cubes, cubePath (some (documentOf "2024-01-15" sampleCubes)) = some cubes
          ∧ (((initialRates.set "USD" (parseFloat (some "1.0850"))).set "JPY"
              (parseFloat (some "160.77"))) "EUR").isSome = true
          ∧ ((∀ cube ∈ cubes, ∀ attrs, cube.attrs = some attrs → RateCube.key attrs ≠ "EUR") →
              ((initialRates.set "USD" (parseFloat (some "1.0850"))).set "JPY"
                (parseFloat (some "160.77"))) "EUR" = some (Num.fin 1))
          ∧ (∀ cube ∈ cubes, ∀ attrs, cube.attrs = some attrs →
              RateCube.key attrs ≠ "__proto__" →
                (((initialRates.set "USD" (parseFloat (some "1.0850"))).set "JPY"
                  (parseFloat (some "160.77"))) (RateCube.key attrs)).isSome = true) :=
  have hparse : sampleXml2js (some sampleFeed)
      = Except.ok (some (documentOf "2024-01-15" sampleCubes)) := rfl
  have htable : rateTable sampleXml2js (some sampleFeed)
      = Except.ok ((initialRates.set "USD" (parseFloat (some "1.0850"))).set "JPY"
          (parseFloat (some "160.77"))) := by
    simp [rateTable, hparse, documentOf, dayCube, defined, rates, sampleCubes, addCubes,
      addCube, interpolate, List.lookup]
  ⟨hparse, htable,
    rateTable_euro_and_entries sampleXml2js (some sampleFeed) _ _ hparse htable⟩

/-! ## C8 -/

theorem addCubes_ok_of_attrs (cubes : List RateCube)
    (h : ∀ cube ∈ cubes, cube.attrs ≠ none) :
    ∀ r : Rates, ∃ t, addCubes r cubes = Except.ok t := by
  induction cubes with
  | nil => exact fun r => ⟨r, rfl⟩
  | cons cube rest ih =>
    intro r
    rcases cube with ⟨_ | a⟩
    · exact absurd rfl (h _ (List.mem_cons_self _ _))
    · simp only [addCubes, addCube, defined]
      exact ih (fun c hc => h c (List.mem_cons_of_mem _ hc)) _

theorem addCubes_error_of_missing_attrs (cubes : List RateCube)
    (h : ∃ cube ∈ cubes, cube.attrs = none) :
    ∀ r : Rates, addCubes r cubes = Except.error Failure.typeError := by
  induction cubes with
  | nil =>
    obtain ⟨cube, hc, _⟩ := h
    exact absurd hc (List.not_mem_nil cube)
  | cons cube rest ih =>
    intro r
    rcases cube with ⟨_ | a⟩
    · simp [addCubes, addCube, defined]
    · simp only [addCubes, addCube, defined]
      apply ih
      obtain ⟨c, hc, hnone⟩ := h
      rcases List.mem_cons.mp hc with rfl | hc
      · simp at hnone
      · exact ⟨c, hc, hnone⟩

/-- C8, as the claim states it, fails: a feed whose entry `XXX` has the rate text `N/A` is
turned into a table without any failure, and a request for US dollars in euros on that feed
succeeds. -/
theorem non_numeric_rate_does_not_fail :
    ¬ ∀ (xml2js : Xml2js) (req : Request) (xmlData : Option String)
        (result : Option Xml2jsResult) (cubes : List RateCube),
        xml2js xmlData = Except.ok result →
        cubePath result = some cubes →
        (∃ cube ∈ cubes, ∃ attrs, cube.attrs = some attrs
          ∧ parseFloat (attrs.lookup "rate") = Num.nan) →
        ∃ e, respond xml2js req xmlData false = Except.error e := by
  intro h
  obtain ⟨e, he⟩ := h (resolvesTo (documentOf "2024-01-15" brokenRateCubes)) dollarToEuro
    (some brokenRateFeed) (some (documentOf "2024-01-15" brokenRateCubes)) brokenRateCubes rfl rfl
    ⟨{ attrs := some [("currency", "XXX"), ("rate", "N/A")] }, by simp [brokenRateCubes],
      [("currency", "XXX"), ("rate", "N/A")], rfl, by decide⟩
  have hok : respond (resolvesTo (documentOf "2024-01-15" brokenRateCubes)) dollarToEuro
      (some brokenRateFeed) false =
        Except.ok
          { from_currency := "USD"
            amount := Num.fin 1
            date := "15/01/2024"
            conversions :=
              [{ to_currency := "EUR"
                 exchange_rate := parseFloat (some "0.93")
                 converted_amount := parseFloat (some "0.93") }] } := by
    decide!
  rw [hok] at he
  exact absurd he (by simp)

theorem dayCube_eq (result : Option Xml2jsResult) :
    dayCube result =
      match dayPath result with
      | none => Except.error Failure.typeError
      | some day => Except.ok day := by
  rcases result with _ | ⟨⟨_ | ⟨⟨_ | outerList⟩⟩⟩⟩
  · rfl
  · rfl
  · rfl
  · rcases outerList with _ | ⟨⟨_ | dayList⟩, _⟩
    · rfl
    · rfl
    · rcases dayList with _ | ⟨day, _⟩
      · rfl
      · rfl

/-- The two paths agree: the currency list is the child list of the dated `Cube`. -/
theorem cubePath_eq (result : Option Xml2jsResult) :
    cubePath result = (dayPath result).bind fun day => day.Cube := by
  rcases result with _ | ⟨⟨_ | ⟨⟨_ | outerList⟩⟩⟩⟩
  · rfl
  · rfl
  · rfl
  · rcases outerList with _ | ⟨⟨_ | dayList⟩, _⟩
    · rfl
    · rfl
    · rcases dayList with _ | ⟨day, _⟩
      · rfl
      · rfl

theorem respond_eq (xml2js : Xml2js) (req : Request) (xmlData : Option String)
    (useCache : Bool) (result : Option Xml2jsResult) (day : DayCube) (cubes : List RateCube)
    (table : Rates)
    (hparse : xml2js xmlData = Except.ok result) (hday : dayPath result = some day)
    (hcubes : day.Cube = some cubes) (htable : addCubes initialRates cubes = Except.ok table) :
    respond xml2js req xmlData useCache =
      match day.attrs.bind fun a => a.lookup "time" with
      | none => Except.error Failure.typeError
      | some isoDate =>
        match conversions table (fromCurrency req) (amount req) (toCurrencies req) with
        | Except.error e => Except.error e
        | Except.ok cs =>
          Except.ok
            { from_currency := fromCurrency req
              amount := amount req
              date :=
                if useCache then formatEuropeanDate isoDate ++ outdatedMarker
                else formatEuropeanDate isoDate
              conversions := cs } := by
  unfold respond
  simp only [hparse, dayCube_eq, hday, rates, hcubes, defined, htable]
  rcases hattrs : day.attrs with _ | attrs
  · rfl
  · simp only [Option.bind]
    rcases htime : List.lookup "time" attrs with _ | isoDate
    · rfl
    · rfl

theorem addCubes_append (first rest : List RateCube) :
    ∀ r : Rates, addCubes r (first ++ rest) =
      match addCubes r first with
      | Except.error e => Except.error e
      | Except.ok r1 => addCubes r1 rest := by
  induction first with
  | nil => exact fun r => rfl
  | cons cube more ih =>
    intro r
    simp only [List.cons_append, addCubes]
    cases addCube r cube with
    | error e => rfl
    | ok r1 => exact ih r1

/-- An entry that is not listed again later is stored with `parseFloat` of its rate text. -/
theorem addCubes_stored (r table : Rates) (front : List RateCube) (cube : RateCube)
    (back : List RateCube) (attrs : List (String × String))
    (h : addCubes r (front ++ cube :: back) = Except.ok table)
    (hattrs : cube.attrs = some attrs) (hkey : RateCube.key attrs ≠ "__proto__")
    (hlast : ∀ c ∈ back, ∀ a, c.attrs = some a → RateCube.key a ≠ RateCube.key attrs) :
    table (RateCube.key attrs) = some (parseFloat (attrs.lookup "rate")) := by
  rw [addCubes_append] at h
  cases hfront : addCubes r front with
  | error e => simp [hfront] at h
  | ok r1 =>
    simp only [hfront, addCubes, addCube, hattrs, defined] at h
    obtain ⟨h1, _, _⟩ := addCubes_spec back _ table h
    rw [h1 (RateCube.key attrs) hlast]
    exact set_apply_self r1 _ _ hkey

theorem splitChars_ne_nil (sep : Char) (cs : List Char) : splitChars sep cs ≠ [] := by
  induction cs with
  | nil => simp [splitChars]
  | cons c rest ih =>
    unfold splitChars
    split
    · simp
    · split <;> simp

theorem toCurrencies_ne_nil (req : Request) : toCurrencies req ≠ [] := by
  unfold toCurrencies
  split
  · split
    · simp [split, splitChars_ne_nil]
    · decide
  · decide

/-- C8, amended: the rate table cannot be built, and the request fails, whenever the XML library
rejects the payload (with its message), or the path envelope, outer `Cube`, dated `Cube`,
currency `Cube` list is absent, or an entry has no attributes (with a `TypeError`). A rate
attribute that is not numeric is no failure. When the path is present and every entry has
attributes: the table is built; every entry whose currency is not `__proto__` and is not listed
again later in the feed is stored with `parseFloat` of its rate text, which is `NaN` for a text
with no numeric prefix; the request fails with a `TypeError` if the dated `Cube` has no `time`
attribute; otherwise a request that names, as source or destination, a code stored with `NaN`
fails with the not-available error, and a request all of whose codes are keys with a rate other
than zero and `NaN` succeeds. -/
theorem feed_failures (xml2js : Xml2js) (req : Request) (xmlData : Option String)
    (useCache : Bool) :
    (∀ message, xml2js xmlData = Except.error message →
        rateTable xml2js xmlData = Except.error (Failure.error message)
          ∧ respond xml2js req xmlData useCache = Except.error (Failure.error message))
      ∧ (∀ result, xml2js xmlData = Except.ok result → cubePath result = none →
        rateTable xml2js xmlData = Except.error Failure.typeError
          ∧ respond xml2js req xmlData useCache = Except.error Failure.typeError)
      ∧ (∀ result cubes, xml2js xmlData = Except.ok result → cubePath result = some cubes →
        (∃ cube ∈ cubes, cube.attrs = none) →
        rateTable xml2js xmlData = Except.error Failure.typeError
          ∧ respond xml2js req xmlData useCache = Except.error Failure.typeError)
      ∧ (∀ result day cubes, xml2js xmlData = Except.ok result → dayPath result = some day →
        day.Cube = some cubes → (∀ cube ∈ cubes, cube.attrs ≠ none) →
        ∃ table, rateTable xml2js xmlData = Except.ok table
          ∧ (∀ front cube back attrs, cubes = front ++ cube :: back → cube.attrs = some attrs →
              RateCube.key attrs ≠ "__proto__" →
              (∀ c ∈ back, ∀ a, c.attrs = some a → RateCube.key a ≠ RateCube.key attrs) →
              table (RateCube.key attrs) = some (parseFloat (attrs.lookup "rate")))
          ∧ ((day.attrs.bind fun a => a.lookup "time") = none →
              respond xml2js req xmlData useCache = Except.error Failure.typeError)
          ∧ (∀ isoDate, (day.attrs.bind fun a => a.lookup "time") = some isoDate →
              ((∃ code ∈ fromCurrency req :: toCurrencies req, table code = some Num.nan) →
                ∃ t ∈ toCurrencies req,
                  respond xml2js req xmlData useCache
                    = Except.error (Failure.error (notAvailableMessage (fromCurrency req) t)))
              ∧ ((∀ code ∈ fromCurrency req :: toCurrencies req, HasUsableRate table code) →
                ∃ cs, respond xml2js req xmlData useCache =
                  Except.ok
                    { from_currency := fromCurrency req
                      amount := amount req
                      date :=
                        if useCache then formatEuropeanDate isoDate ++ outdatedMarker
                        else formatEuropeanDate isoDate
                      conversions := cs }))) := by
  refine ⟨?_, ?_, ?_, ?_⟩
  · intro message h
    have ht : rateTable xml2js xmlData = Except.error (Failure.error message) := by
      simp [rateTable, h]
    exact ⟨ht, respond_of_rateTable_error xml2js req xmlData useCache _ ht⟩
  · intro result h hpath
    have ht : rateTable xml2js xmlData = Except.error Failure.typeError := by
      rw [rateTable_eq xml2js xmlData result h, hpath]
    exact ⟨ht, respond_of_rateTable_error xml2js req xmlData useCache _ ht⟩
  · intro result cubes h hpath hmissing
    have ht : rateTable xml2js xmlData = Except.error Failure.typeError := by
      rw [rateTable_eq xml2js xmlData result h, hpath]
      exact addCubes_error_of_missing_attrs cubes hmissing initialRates
    exact ⟨ht, respond_of_rateTable_error xml2js req xmlData useCache _ ht⟩
  · intro result day cubes h hday hcubes hattrs
    obtain ⟨table, htable⟩ := addCubes_ok_of_attrs cubes hattrs initialRates
    have hpath : cubePath result = some cubes := by
      rw [cubePath_eq, hday]
      exact hcubes
    have hresp := respond_eq xml2js req xmlData useCache result day cubes table h hday hcubes
      htable
    refine ⟨table, by rw [rateTable_eq xml2js xmlData result h, hpath]; exact htable, ?_, ?_, ?_⟩
    · intro front cube back attrs hsplit hcube hkey hlast
      rw [hsplit] at htable
      exact addCubes_stored initialRates table front cube back attrs htable hcube hkey hlast
    · intro hnone
      rw [hresp, hnone]
    · intro isoDate htime
      rw [hresp, htime]
      constructor
      · rintro ⟨code, hcode, hnan⟩
        have hfalsy : (table.get (fromCurrency req)).truthy = false
            ∨ ∃ c ∈ toCurrencies req, (table.get c).truthy = false := by
          rcases List.mem_cons.mp hcode with rfl | hc
          · exact Or.inl (falsy_of_nan table _ hnan)
          · exact Or.inr ⟨code, hc, falsy_of_nan table code hnan⟩
        obtain ⟨t, htm, _, hte⟩ := conversions_error_of_falsy table (fromCurrency req)
          (amount req) (toCurrencies req) (toCurrencies_ne_nil req) hfalsy
        exact ⟨t, htm, by simp only [hte]⟩
      · intro hall
        obtain ⟨cs, hcs⟩ := conversions_ok_of_truthy table (fromCurrency req) (amount req)
          (toCurrencies req)
          (truthy_of_usable table _ (hall _ (List.mem_cons_self _ _)))
          (fun c hc => truthy_of_usable table c (hall c (List.mem_cons_of_mem _ hc)))
        exact ⟨cs, by simp only [hcs]⟩

/-- Witness for C8 amended: the feed with the rate text `N/A` for `XXX`; the table is built with
`NaN` stored for `XXX`, and a request for US dollars in `XXX` fails as not available. -/
theorem feed_failures_witness :
    resolvesTo (documentOf "2024-01-15" brokenRateCubes) (some brokenRateFeed)
        = Except.ok (some (documentOf "2024-01-15" brokenRateCubes))
      ∧ dayPath (some (documentOf "2024-01-15" brokenRateCubes))
          = some { attrs := some [("time", "2024-01-15")], Cube := some brokenRateCubes }
      ∧ (∀ cube ∈ brokenRateCubes, cube.attrs ≠ none)
      ∧ ∃ table,
          rateTable (resolvesTo (documentOf "2024-01-15" brokenRateCubes)) (some brokenRateFeed)
              = Except.ok table
            ∧ table "XXX" = some Num.nan
            ∧ ∃ t ∈ toCurrencies dollarToXxx,
                respond (resolvesTo (documentOf "2024-01-15" brokenRateCubes)) dollarToXxx
                    (some brokenRateFeed) false
                  = Except.error (Failure.error (notAvailableMessage (fromCurrency dollarToXxx) t)) := by
  have hattrs : ∀ cube ∈ brokenRateCubes, cube.attrs ≠ none := by
    intro cube hc
    simp only [brokenRateCubes, List.mem_cons, List.mem_singleton, List.not_mem_nil,
      or_false] at hc
    rcases hc with rfl | rfl <;> simp
  refine ⟨rfl, rfl, hattrs, ?_⟩
  obtain ⟨table, htable, hstored, _, hreq⟩ :=
    (feed_failures (resolvesTo (documentOf "2024-01-15" brokenRateCubes)) dollarToXxx
      (some brokenRateFeed) false).2.2.2 (some (documentOf "2024-01-15" brokenRateCubes))
      { attrs := some [("time", "2024-01-15")], Cube := some brokenRateCubes } brokenRateCubes
      rfl rfl rfl hattrs
  have hnan : table "XXX" = some Num.nan :=
    hstored [{ attrs := some [("currency", "USD"), ("rate", "1.0850")] }]
      { attrs := some [("currency", "XXX"), ("rate", "N/A")] } []
      [("currency", "XXX"), ("rate", "N/A")] rfl rfl (by decide)
      (fun c hc => absurd hc (List.not_mem_nil c))
  exact ⟨table, htable, hnan,
    (hreq "2024-01-15" rfl).1 ⟨"XXX", by decide, hnan⟩⟩

/-! ## C9 -/

/-- C9 at the amounts `1.09` and `0.7000000000000001` with equal rates (`EUR` to `EUR`).
(a) `1.09` is converted to `1.1` (since `1.09 * 100` is `109.00000000000001` in binary64) and
`1.1` is converted back to `1.11`, which is not below `1.09 + 0.01 * (1 + 1 / 1)`.
(b) `0.7000000000000001` is converted to `0.7` (since its product with 100 rounds to 70) and
`0.7` is converted back to `0.7`, which is below the starting amount. -/
theorem round_trip_leaves_the_tolerance :
    (∃ x x1 y : ℚ,
        parseFloat (some "1.09") = Num.fin x
          ∧ conversion initialRates "EUR" (Num.fin x) "EUR" =
            Except.ok
              { to_currency := "EUR", exchange_rate := Num.fin 1, converted_amount := Num.fin x1 }
          ∧ parseFloat (some "1.1") = Num.fin x1
          ∧ conversion initialRates "EUR" (Num.fin x1) "EUR" =
            Except.ok
              { to_currency := "EUR", exchange_rate := Num.fin 1, converted_amount := Num.fin y }
          ∧ parseFloat (some "1.11") = Num.fin y
          ∧ ¬ y < x + 1 / 100 * (1 + 1 / 1))
      ∧ ∃ x x1 y : ℚ,
        parseFloat (some "0.7000000000000001") = Num.fin x
          ∧ conversion initialRates "EUR" (Num.fin x) "EUR" =
            Except.ok
              { to_currency := "EUR", exchange_rate := Num.fin 1, converted_amount := Num.fin x1 }
          ∧ parseFloat (some "0.7") = Num.fin x1
          ∧ conversion initialRates "EUR" (Num.fin x1) "EUR" =
            Except.ok
              { to_currency := "EUR", exchange_rate := Num.fin 1, converted_amount := Num.fin y }
          ∧ ¬ x ≤ y := by
  constructor
  · refine ⟨4908923593833841 / 4503599627370496, 2476979795053773 / 2251799813685248,
      4998995586381251 / 4503599627370496, ?_, ?_, ?_, ?_, ?_, ?_⟩
    · decide!
    · decide!
    · decide!
    · decide!
    · decide!
    · norm_num
  · refine ⟨6305039478318695 / 9007199254740992, 3152519739159347 / 4503599627370496,
      3152519739159347 / 4503599627370496, ?_, ?_, ?_, ?_, ?_⟩
    · decide!
    · decide!
    · decide!
    · decide!
    · norm_num

/-! ## C10 -/

theorem amount_of_nonzero (req : Request) (q : ℚ) (h : parseFloat req.amount = Num.fin q)
    (hq : q ≠ 0) : amount req = Num.fin q := by
  simp [amount, h, Num.truthy, hq]

theorem amount_of_nan (req : Request) (h : parseFloat req.amount = Num.nan) :
    amount req = Num.fin 1 := by
  simp [amount, h, Num.truthy]

theorem amount_of_zero (req : Request) (h : parseFloat req.amount = Num.fin 0) :
    amount req = Num.fin 1 := by
  simp [amount, h, Num.truthy]

/-- C10 at the amount `0`: the parameter is numeric and its value is zero, yet the amount used
for the conversion and echoed in the reply is 1; a negative amount is kept, and an absent or
non-numeric parameter gives 1. -/
theorem amount_zero_is_replaced_by_one :
    parseFloat (some "0") = Num.fin 0
      ∧ amount { from_currency := none, to_currency := none, amount := some "0" } = Num.fin 1
      ∧ amount { from_currency := none, to_currency := none, amount := some "-2.5" }
          = Num.fin (-5 / 2)
      ∧ amount { from_currency := none, to_currency := none, amount := none } = Num.fin 1
      ∧ amount { from_currency := none, to_currency := none, amount := some "abc" }
          = Num.fin 1 := by
  refine ⟨?_, ?_, ?_, ?_, ?_⟩ <;> decide!

end CurrencyExchange
